import Mathlib

/-!
Shallow embedding of `clippy_lints/src/wildcard_imports.rs` (the
`wildcard_imports` / `enum_glob_use` lint pass), together with proofs about
its behaviour.

The embedding models:
- spans as pairs of byte offsets (`lo`, `hi`);
- HIR items restricted to the attributes the pass reads: identifier name,
  visibility, whether the item span originates from macro expansion
  (`in_macro(item.span)`), the item span, and the item kind (`use`-glob or
  anything else);
- the pass state `WildcardImports` with fields `warn_on_all`,
  `is_test_module` and `test_modules_deep`;
- the external collaborators (name resolver result and source-text service)
  as explicit inputs in a `LateContext`.

Machine integers: `test_modules_deep` is a Rust `u32`; we model it as `Nat`
and separately prove that the only subtraction the code performs
(`self.test_modules_deep -= 1`) is always applied to a positive value along
the traversals considered, so no wrap/underflow behaviour is lost.
-/

/-- A byte span into the source text (`rustc_span::Span` restricted to what
the pass uses: `lo`, `hi`, `with_hi`). -/
structure Span where
  lo : Nat
  hi : Nat
deriving DecidableEq, Repr

/-- A path segment (only its identifier is read by the pass). -/
structure PathSegment where
  ident : String
deriving DecidableEq, Repr

/-- The definition kinds the pass distinguishes: `DefKind::Enum` versus
everything else (`Mod` kept for concreteness of non-enum targets). -/
inductive DefKind where
  | Enum
  | Mod
  | OtherKind
deriving DecidableEq, Repr

/-- Resolution of the import's target path: `Res::Def(kind, def_id)` or any
other `Res` variant. -/
inductive Res where
  | Def (kind : DefKind) (id : Nat)
  | NonDef
deriving DecidableEq, Repr

/-- Embeds `rustc_hir::UseKind`. -/
inductive UseKind where
  | Single
  | Glob
  | ListStem
deriving DecidableEq, Repr

/-- The `use` path of an import item: its segments, its span, and the
resolution of its target. -/
structure UsePath where
  segments : List PathSegment
  span : Span
  res : Res
deriving DecidableEq, Repr

/-- The item kinds the pass distinguishes: `ItemKind::Use(path, kind)`
versus everything else. -/
inductive ItemKind where
  | use (path : UsePath) (kind : UseKind)
  | other
deriving DecidableEq, Repr

/-- A HIR item restricted to the attributes read by the pass.
`macroOrigin` models `in_macro(item.span)`. -/
structure Item where
  name : String
  visPub : Bool
  visPubRestricted : Bool
  macroOrigin : Bool
  span : Span
  kind : ItemKind
deriving DecidableEq, Repr

/-- Embeds `rustc_errors::Applicability`, restricted to the two values the pass can
produce. -/
inductive Applicability where
  | MachineApplicable
  | HasPlaceholders
deriving DecidableEq, Repr

/-- The two lints registered by the pass. -/
inductive Lint where
  | ENUM_GLOB_USE
  | WILDCARD_IMPORTS
deriving DecidableEq, Repr

/-- A diagnostic as handed to the diagnostic sink by `span_lint_and_sugg`. -/
structure Diagnostic where
  lint : Lint
  span : Span
  message : String
  help : String
  sugg : String
  applicability : Applicability
deriving DecidableEq, Repr

/-- The slice of `LateContext` the pass consumes: the resolver's answer
`cx.tcx.names_imported_by_glob_use(..)` for the item at hand (as a list in
resolver iteration order) and the source text service (`snippet_opt`),
which may fail for a span. -/
structure LateContext where
  usedImports : List String
  snippetFn : Span → Option String

/-- The pass state (struct `WildcardImports`). `test_modules_deep` is `u32`
in the source, modelled as `Nat`. -/
structure WildcardImports where
  warn_on_all : Bool
  is_test_module : Bool
  test_modules_deep : Nat
deriving DecidableEq, Repr

/-- Embeds `WildcardImports::new(warn_on_all)`. -/
def WildcardImports.new (warn_on_all : Bool) : WildcardImports :=
  { warn_on_all, is_test_module := false, test_modules_deep := 0 }

/-- Substring containment on character lists: `pat` occurs contiguously in
the other list. Embeds Rust's `str::contains` for an ASCII needle (UTF-8 is
self-synchronizing, so byte-level and character-level containment agree for
the needle `"test"`). -/
def containsSub (pat : List Char) : List Char → Bool
  | [] => pat.isEmpty
  | c :: rest => pat.isPrefixOf (c :: rest) || containsSub pat rest

/-- Embeds `is_test_module(item)`: `item.ident.name.as_str().contains("test")`. -/
def is_test_module (item : Item) : Bool :=
  containsSub "test".toList item.name.toList

/-- Embeds `is_prelude_import(segments)`: the last segment's identifier is
`"prelude"`. -/
def is_prelude_import (segments : List PathSegment) : Bool :=
  match segments.getLast? with
  | some ps => ps.ident == "prelude"
  | none => false

/-- Embeds `is_super_only_import(segments)`: exactly one segment, named `"super"`. -/
def is_super_only_import (segments : List PathSegment) : Bool :=
  match segments with
  | [ps] => ps.ident == "super"
  | _ => false

/-- Embeds `WildcardImports::check_exceptions`. -/
def WildcardImports.check_exceptions (s : WildcardImports)
    (segments : List PathSegment) : Bool :=
  is_prelude_import segments ||
    (is_super_only_import segments && decide (0 < s.test_modules_deep))

/-- Lines 100-103 of `check_item`: on seeing a test-named item, set
`is_test_module` and increment `test_modules_deep`. -/
def update_test_state (s : WildcardImports) (item : Item) : WildcardImports :=
  if is_test_module item then
    { s with is_test_module := true,
             test_modules_deep := s.test_modules_deep + 1 }
  else s

/-- Embeds `str::ends_with(char)` for the snippet text. -/
def endsWithChar (s : String) (c : Char) : Bool :=
  s.toList.getLast? == some c

/-- Modelled from the spec: the Source Text Service's snippet retrieval with
a default (`snippet` from clippy's utils, which is not under `src/`):
returns raw source text for a byte range, or the supplied default if
unavailable. -/
def snippet (ctx : LateContext) (span : Span) (dflt : String) : String :=
  (ctx.snippetFn span).getD dflt

/-- Modelled from the spec: `snippet_with_applicability` from clippy's utils
(not under `src/`): returns the raw source text for the span, or the default
with the applicability downgraded to `HasPlaceholders` ("marked lower
confidence") when the text is unavailable. -/
def snippet_with_applicability (ctx : LateContext) (span : Span)
    (dflt : String) (applicability : Applicability) : String × Applicability :=
  match ctx.snippetFn span with
  | some t => (t, applicability)
  | none => (dflt, Applicability.HasPlaceholders)

/-- Modelled from the spec: the Diagnostic Sink's report operation
(`span_lint_and_sugg` from clippy's utils, not under `src/`): hands exactly
one diagnostic with the given category, span, message, help label,
suggested replacement and applicability to the sink. -/
def span_lint_and_sugg (lint : Lint) (span : Span) (message help sugg : String)
    (applicability : Applicability) : Diagnostic :=
  { lint, span, message, help, sugg, applicability }

/-- Lines 113-134 of `check_item`: the replacement-span computation.
If the path snippet is empty (nested glob in a braced group), extend the
path span one byte past its end to cover the `*` and flag the braced form;
otherwise extend the path span to the end of the item span, excluding a
trailing `;` when present. -/
def compute_replacement_span (ctx : LateContext)
    (import_source_snippet : String) (path_span item_span : Span) :
    Span × Bool :=
  if import_source_snippet.toList.isEmpty then
    ({ path_span with hi := path_span.hi + 1 }, true)
  else
    let span := { path_span with hi := item_span.hi }
    if endsWithChar (snippet ctx span "") ';' then
      ({ path_span with hi := item_span.hi - 1 }, false)
    else
      (span, false)

/-- Lines 136-149 of `check_item`: the `imports_string` computation. A
single resolved name is used as is; multiple names are sorted, joined with
`", "`, and wrapped in braces unless the glob was in braced form. -/
def imports_string_of (used_imports : List String) (braced_glob : Bool) :
    String :=
  if used_imports.length = 1 then
    used_imports.headD ""
  else
    let imports := List.insertionSort (· ≤ ·) used_imports
    if braced_glob then
      String.intercalate ", " imports
    else
      "\x7b" ++ String.intercalate ", " imports ++ "\x7d"

/-- Lines 151-155 of `check_item`: the final suggestion text. -/
def sugg_of (used_imports : List String) (import_source_snippet : String)
    (braced_glob : Bool) : String :=
  if braced_glob then
    imports_string_of used_imports braced_glob
  else
    import_source_snippet ++ "::" ++ imports_string_of used_imports braced_glob

/-- Lines 157-161 of `check_item`: lint category and message selection. -/
def lint_and_message (res : Res) : Lint × String :=
  match res with
  | Res.Def DefKind.Enum _ =>
      (Lint.ENUM_GLOB_USE, "usage of wildcard import for enum variants")
  | _ => (Lint.WILDCARD_IMPORTS, "usage of wildcard import")

/-- Lines 111-171 of `check_item`: the diagnostic constructed for a
non-exempt glob import with a non-empty resolved-name set. -/
def build_diag (ctx : LateContext) (item : Item) (use_path : UsePath) :
    Diagnostic :=
  let applicability := Applicability.MachineApplicable
  let (import_source_snippet, applicability) :=
    snippet_with_applicability ctx use_path.span ".." applicability
  let (span, braced_glob) :=
    compute_replacement_span ctx import_source_snippet use_path.span item.span
  let sugg := sugg_of ctx.usedImports import_source_snippet braced_glob
  let (lint, message) := lint_and_message use_path.res
  span_lint_and_sugg lint span message "try" sugg applicability

/-- Lines 104-173 of `check_item`: the `if_chain!` deciding whether a
diagnostic is emitted (evaluated after the test-module state update). -/
def check_item_diag (s : WildcardImports) (ctx : LateContext) (item : Item) :
    Option Diagnostic :=
  if !item.macroOrigin then
    match item.kind with
    | ItemKind.use use_path UseKind.Glob =>
      if s.warn_on_all || !(s.check_exceptions use_path.segments) then
        if !ctx.usedImports.isEmpty then
          some (build_diag ctx item use_path)
        else none
      else none
    | _ => none
  else none

/-- Embeds `WildcardImports::check_item` (lines 96-174): public and restricted
items return early; otherwise the test-module state is updated and the
`if_chain!` decides whether one diagnostic is handed to the sink. -/
def WildcardImports.check_item (s : WildcardImports) (ctx : LateContext)
    (item : Item) : WildcardImports × Option Diagnostic :=
  if item.visPub || item.visPubRestricted then
    (s, none)
  else
    let s := update_test_state s item
    (s, check_item_diag s ctx item)

/-- Embeds `WildcardImports::check_item_post` (lines 176-181): the item argument is
ignored by the source. -/
def WildcardImports.check_item_post (s : WildcardImports) : WildcardImports :=
  if s.is_test_module then
    { s with is_test_module := false,
             test_modules_deep := s.test_modules_deep - 1 }
  else s

/-!
Walker model: the external Tree Walker calls `check_item` on entering a
declaration (pre-order) and `check_item_post` on leaving it (post-order),
in strict nesting order. A balanced enter/leave sequence is exactly the
flattening of a forest of declaration trees.
-/

mutual
/-- A declaration node with its nested declarations. -/
inductive DeclTree where
  | node (item : Item) (children : DeclForest)
/-- A list of sibling declaration trees. -/
inductive DeclForest where
  | nil
  | cons (t : DeclTree) (rest : DeclForest)
end

/-- One hook invocation by the walker. `check_item_post` ignores its item
argument, which is kept here for fidelity to the hook signature. -/
inductive HookEvent where
  | enter (item : Item)
  | leave (item : Item)

/-- The state transition of one hook call (the diagnostic, if any, does not
feed back into the state). -/
def hook_step (ctx : LateContext) (s : WildcardImports) :
    HookEvent → WildcardImports
  | HookEvent.enter item => (s.check_item ctx item).1
  | HookEvent.leave _ => s.check_item_post

/-- Run a sequence of hook calls from a state. -/
def run_hooks (ctx : LateContext) :
    WildcardImports → List HookEvent → WildcardImports
  | s, [] => s
  | s, e :: evs => run_hooks ctx (hook_step ctx s e) evs

/-- All states reached while running a sequence of hook calls, the initial
state included. -/
def hook_states (ctx : LateContext) :
    WildcardImports → List HookEvent → List WildcardImports
  | s, [] => [s]
  | s, e :: evs => s :: hook_states ctx (hook_step ctx s e) evs

mutual
/-- Flatten a tree into its balanced enter/leave sequence. -/
def flattenTree : DeclTree → List HookEvent
  | DeclTree.node item children =>
      HookEvent.enter item :: (flattenForest children ++ [HookEvent.leave item])
/-- Flatten a forest into its balanced enter/leave sequence. -/
def flattenForest : DeclForest → List HookEvent
  | DeclForest.nil => []
  | DeclForest.cons t rest => flattenTree t ++ flattenForest rest
end

/-- An item whose `check_item` call mutates the scope-tracking state:
non-public (so the early return is not taken) with an identifier containing
`"test"`. -/
def test_trigger (item : Item) : Bool :=
  !(item.visPub || item.visPubRestricted) && is_test_module item

mutual
/-- No state-mutating (test-named, non-public) declaration anywhere in the
tree. -/
def treeTestFree : DeclTree → Bool
  | DeclTree.node item children =>
      !test_trigger item && forestTestFree children
/-- No state-mutating declaration anywhere in the forest. -/
def forestTestFree : DeclForest → Bool
  | DeclForest.nil => true
  | DeclForest.cons t rest => treeTestFree t && forestTestFree rest
end

mutual
/-- No state-mutating declaration is nested inside another one. -/
def treeNoNestedTest : DeclTree → Bool
  | DeclTree.node item children =>
      if test_trigger item then forestTestFree children
      else forestNoNestedTest children
/-- No state-mutating declaration is nested inside another one, anywhere in
the forest. -/
def forestNoNestedTest : DeclForest → Bool
  | DeclForest.nil => true
  | DeclForest.cons t rest => treeNoNestedTest t && forestNoNestedTest rest
end

/-- The effect of `check_item_post` when `is_test_module` is set. -/
def clear_dec (s : WildcardImports) : WildcardImports :=
  { s with is_test_module := false,
           test_modules_deep := s.test_modules_deep - 1 }

/-- The effect of `check_item` on the state for a test-named non-public
item. -/
def bump (s : WildcardImports) : WildcardImports :=
  { s with is_test_module := true,
           test_modules_deep := s.test_modules_deep + 1 }

/-!
Concrete inputs used by witnesses and counterexamples.
-/

/-- A context with no resolved names and an unavailable source text
service. -/
def ctx0 : LateContext :=
  { usedImports := [], snippetFn := fun _ => none }

/-- A private, non-macro item with a given name and kind. -/
def mkItem (nm : String) (knd : ItemKind) : Item :=
  { name := nm, visPub := false, visPubRestricted := false,
    macroOrigin := false, span := { lo := 0, hi := 30 }, kind := knd }

/-- Models `mod tests { mod test_inner { } }`: two nested test-named modules. -/
def nestedTestForest : DeclForest :=
  DeclForest.cons
    (DeclTree.node (mkItem "tests" ItemKind.other)
      (DeclForest.cons
        (DeclTree.node (mkItem "test_inner" ItemKind.other) DeclForest.nil)
        DeclForest.nil))
    DeclForest.nil

/-- Models `mod tests { mod helper { } }`: one test-named module with a non-test
child. -/
def okForest : DeclForest :=
  DeclForest.cons
    (DeclTree.node (mkItem "tests" ItemKind.other)
      (DeclForest.cons
        (DeclTree.node (mkItem "helper" ItemKind.other) DeclForest.nil)
        DeclForest.nil))
    DeclForest.nil

/-- The path of `use std::prelude::*`. -/
def preludePath : UsePath :=
  { segments := [{ ident := "std" }, { ident := "prelude" }],
    span := { lo := 4, hi := 16 }, res := Res.NonDef }

/-- The item `use std::prelude::*;` at private scope. -/
def preludeItem : Item :=
  mkItem "" (ItemKind.use preludePath UseKind.Glob)

/-- A context resolving a prelude glob to two names. -/
def preludeCtx : LateContext :=
  { usedImports := ["Vec", "Box"], snippetFn := fun _ => none }

/-- The path of `use Ordering::*` resolving to an enum definition. -/
def enumPath : UsePath :=
  { segments := [{ ident := "Ordering" }],
    span := { lo := 4, hi := 12 }, res := Res.Def DefKind.Enum 7 }

/-- The item `use Ordering::*;` at private scope. -/
def enumItem : Item :=
  mkItem "" (ItemKind.use enumPath UseKind.Glob)

/-- A context resolving the enum glob to one variant name. -/
def enumCtx : LateContext :=
  { usedImports := ["Less"], snippetFn := fun _ => none }

/-- The diagnostic built for the enum glob example. -/
def enumDiag : Diagnostic :=
  build_diag enumCtx enumItem enumPath

/-- A non-public, macro-originated item whose identifier contains "test". -/
def macroTestItem : Item :=
  { name := "tests", visPub := false, visPubRestricted := false,
    macroOrigin := true, span := { lo := 0, hi := 30 },
    kind := ItemKind.other }

/-- The no-underflow invariant: whenever the `is_test_module` flag is set,
the depth is positive, so the `u32` decrement in `check_item_post` cannot
wrap. -/
def stateOK (s : WildcardImports) : Prop :=
  s.is_test_module = true → 1 ≤ s.test_modules_deep

/-!
Helper lemmas about the state evolution of the hooks.
-/

theorem check_item_fst (s : WildcardImports) (ctx : LateContext)
    (item : Item) :
    (s.check_item ctx item).1 =
      if item.visPub || item.visPubRestricted then s
      else update_test_state s item := by
  unfold WildcardImports.check_item
  split <;> rfl

theorem hook_step_enter (ctx : LateContext) (s : WildcardImports)
    (item : Item) :
    hook_step ctx s (HookEvent.enter item) =
      if test_trigger item then bump s else s := by
  show (s.check_item ctx item).1 = _
  rw [check_item_fst]
  unfold test_trigger update_test_state bump
  cases hp : (item.visPub || item.visPubRestricted) <;>
    cases ht : is_test_module item <;> simp [hp, ht]

theorem hook_step_leave (ctx : LateContext) (s : WildcardImports)
    (item : Item) :
    hook_step ctx s (HookEvent.leave item) = s.check_item_post := rfl

theorem check_item_post_of_flag_false {s : WildcardImports}
    (hs : s.is_test_module = false) : s.check_item_post = s := by
  unfold WildcardImports.check_item_post
  simp [hs]

theorem check_item_post_of_flag_true {s : WildcardImports}
    (hs : s.is_test_module = true) : s.check_item_post = clear_dec s := by
  unfold WildcardImports.check_item_post clear_dec
  simp [hs]

theorem run_hooks_append (ctx : LateContext) (s : WildcardImports)
    (l₁ l₂ : List HookEvent) :
    run_hooks ctx s (l₁ ++ l₂) = run_hooks ctx (run_hooks ctx s l₁) l₂ := by
  induction l₁ generalizing s with
  | nil => rfl
  | cons e l ih => simp [run_hooks, ih]

mutual
theorem run_free_tree (ctx : LateContext) (s : WildcardImports)
    (t : DeclTree) (hf : treeTestFree t = true)
    (hs : s.is_test_module = false) :
    run_hooks ctx s (flattenTree t) = s := by
  cases t with
  | node item children =>
    unfold treeTestFree at hf
    rw [Bool.and_eq_true] at hf
    have htrig : test_trigger item = false := by
      rcases hf with ⟨h1, _⟩
      cases h : test_trigger item
      · rfl
      · rw [h] at h1; simp at h1
    show run_hooks ctx (hook_step ctx s (HookEvent.enter item))
        (flattenForest children ++ [HookEvent.leave item]) = s
    rw [hook_step_enter, if_neg (by simp [htrig])]
    rw [run_hooks_append, run_free_forest ctx s children hf.2 hs]
    show hook_step ctx s (HookEvent.leave item) = s
    rw [hook_step_leave, check_item_post_of_flag_false hs]

theorem run_free_forest (ctx : LateContext) (s : WildcardImports)
    (f : DeclForest) (hf : forestTestFree f = true)
    (hs : s.is_test_module = false) :
    run_hooks ctx s (flattenForest f) = s := by
  cases f with
  | nil => rfl
  | cons t rest =>
    unfold forestTestFree at hf
    rw [Bool.and_eq_true] at hf
    show run_hooks ctx s (flattenTree t ++ flattenForest rest) = s
    rw [run_hooks_append, run_free_tree ctx s t hf.1 hs,
        run_free_forest ctx s rest hf.2 hs]
end

theorem clear_dec_flag (s : WildcardImports) :
    (clear_dec s).is_test_module = false := rfl

mutual
theorem run_free_tree_flagged (ctx : LateContext) (s : WildcardImports)
    (t : DeclTree) (hf : treeTestFree t = true)
    (hs : s.is_test_module = true) :
    run_hooks ctx s (flattenTree t) = clear_dec s := by
  cases t with
  | node item children =>
    unfold treeTestFree at hf
    rw [Bool.and_eq_true] at hf
    have htrig : test_trigger item = false := by
      rcases hf with ⟨h1, _⟩
      cases h : test_trigger item
      · rfl
      · rw [h] at h1; simp at h1
    show run_hooks ctx (hook_step ctx s (HookEvent.enter item))
        (flattenForest children ++ [HookEvent.leave item]) = clear_dec s
    rw [hook_step_enter, if_neg (by simp [htrig]), run_hooks_append]
    cases children with
    | nil =>
      show hook_step ctx s (HookEvent.leave item) = clear_dec s
      rw [hook_step_leave, check_item_post_of_flag_true hs]
    | cons t' rest' =>
      rw [run_free_forest_flagged ctx s (DeclForest.cons t' rest') hf.2 hs]
      show hook_step ctx (clear_dec s) (HookEvent.leave item) = clear_dec s
      rw [hook_step_leave, check_item_post_of_flag_false (clear_dec_flag s)]

theorem run_free_forest_flagged (ctx : LateContext) (s : WildcardImports)
    (f : DeclForest) (hf : forestTestFree f = true)
    (hs : s.is_test_module = true) :
    run_hooks ctx s (flattenForest f) =
      (match f with
       | DeclForest.nil => s
       | DeclForest.cons _ _ => clear_dec s) := by
  cases f with
  | nil => rfl
  | cons t rest =>
    unfold forestTestFree at hf
    rw [Bool.and_eq_true] at hf
    show run_hooks ctx s (flattenTree t ++ flattenForest rest) = clear_dec s
    rw [run_hooks_append, run_free_tree_flagged ctx s t hf.1 hs,
        run_free_forest ctx (clear_dec s) rest hf.2 (clear_dec_flag s)]
end

theorem clear_dec_bump (s : WildcardImports) (hs : s.is_test_module = false) :
    clear_dec (bump s) = s := by
  cases s with
  | mk w fl d => simp_all [clear_dec, bump]

mutual
theorem run_noNest_tree (ctx : LateContext) (s : WildcardImports)
    (t : DeclTree) (h : treeNoNestedTest t = true)
    (hs : s.is_test_module = false) :
    run_hooks ctx s (flattenTree t) = s := by
  cases t with
  | node item children =>
    unfold treeNoNestedTest at h
    cases htrig : test_trigger item with
    | true =>
      rw [htrig] at h; simp at h
      show run_hooks ctx (hook_step ctx s (HookEvent.enter item))
          (flattenForest children ++ [HookEvent.leave item]) = s
      rw [hook_step_enter, if_pos (by simp [htrig]), run_hooks_append]
      cases children with
      | nil =>
        show hook_step ctx (bump s) (HookEvent.leave item) = s
        rw [hook_step_leave, check_item_post_of_flag_true rfl, clear_dec_bump s hs]
      | cons t' rest' =>
        rw [run_free_forest_flagged ctx _ (DeclForest.cons t' rest') h rfl]
        show hook_step ctx (clear_dec (bump s)) (HookEvent.leave item) = s
        rw [hook_step_leave, check_item_post_of_flag_false (clear_dec_flag _),
            clear_dec_bump s hs]
    | false =>
      rw [htrig] at h; simp at h
      show run_hooks ctx (hook_step ctx s (HookEvent.enter item))
          (flattenForest children ++ [HookEvent.leave item]) = s
      rw [hook_step_enter, if_neg (by simp [htrig]), run_hooks_append,
          run_noNest_forest ctx s children h hs]
      show hook_step ctx s (HookEvent.leave item) = s
      rw [hook_step_leave, check_item_post_of_flag_false hs]

theorem run_noNest_forest (ctx : LateContext) (s : WildcardImports)
    (f : DeclForest) (h : forestNoNestedTest f = true)
    (hs : s.is_test_module = false) :
    run_hooks ctx s (flattenForest f) = s := by
  cases f with
  | nil => rfl
  | cons t rest =>
    unfold forestNoNestedTest at h
    rw [Bool.and_eq_true] at h
    show run_hooks ctx s (flattenTree t ++ flattenForest rest) = s
    rw [run_hooks_append, run_noNest_tree ctx s t h.1 hs,
        run_noNest_forest ctx s rest h.2 hs]
end

theorem stateOK_hook_step (ctx : LateContext) (s : WildcardImports)
    (e : HookEvent) (h : stateOK s) : stateOK (hook_step ctx s e) := by
  cases e with
  | enter item =>
    rw [hook_step_enter]
    split
    · intro _; simp [bump]
    · exact h
  | leave item =>
    show stateOK s.check_item_post
    unfold WildcardImports.check_item_post
    split
    · intro hh; simp at hh
    · exact h

theorem stateOK_hook_states (ctx : LateContext) :
    ∀ (evs : List HookEvent) (s : WildcardImports), stateOK s →
      ∀ s' ∈ hook_states ctx s evs, stateOK s' := by
  intro evs
  induction evs with
  | nil =>
    intro s hs s' hmem
    simp [hook_states] at hmem
    rwa [hmem]
  | cons e rest ih =>
    intro s hs s' hmem
    simp only [hook_states, List.mem_cons] at hmem
    rcases hmem with rfl | hmem
    · exact hs
    · exact ih _ (stateOK_hook_step ctx s e hs) s' hmem

/-!
Claim theorems.
-/

/-- Claim C2 (amended): starting from a fresh pass state, the test-scope
depth counter is 0 before the traversal, the decrement in `check_item_post`
is only ever applied when the depth is positive (so the `u32` counter never
goes negative), and the state returns to its initial value after a full
traversal of any balanced enter/leave sequence in which no test-scope
triggering declaration is nested inside another one. (As stated, with
arbitrary nesting of test-named declarations included, the claim is false:
see the counterexample theorem.) -/
theorem scope_depth_balanced_traversal (warn : Bool) (ctx : LateContext)
    (f : DeclForest) (h : forestNoNestedTest f = true) :
    run_hooks ctx (WildcardImports.new warn) (flattenForest f) =
      WildcardImports.new warn
    ∧ (WildcardImports.new warn).test_modules_deep = 0
    ∧ ∀ s' ∈ hook_states ctx (WildcardImports.new warn) (flattenForest f),
        stateOK s' := by
  refine ⟨run_noNest_forest ctx _ f h rfl, rfl, ?_⟩
  refine stateOK_hook_states ctx _ _ ?_
  intro hh
  simp [WildcardImports.new] at hh

/-- Claim C2, counterexample: for the balanced traversal of
`mod tests { mod test_inner { } }` (two nested test-named declarations) the
depth counter ends at 1, not 0: the inner leave consumes the
`is_test_module` flag, so the outer leave never decrements. -/
theorem scope_depth_nested_test_cex :
    (run_hooks ctx0 (WildcardImports.new false)
        (flattenForest nestedTestForest)).test_modules_deep = 1
    ∧ (WildcardImports.new false).test_modules_deep = 0 := by
  decide

/-- Claim C2, witness: a concrete balanced traversal
(`mod tests { mod helper { } }`) with no nested test-named declarations
returns the state to its initial value. -/
theorem scope_depth_balanced_traversal_check :
    forestNoNestedTest okForest = true
    ∧ run_hooks ctx0 (WildcardImports.new false) (flattenForest okForest) =
        WildcardImports.new false :=
  ⟨by decide, (scope_depth_balanced_traversal false ctx0 okForest (by decide)).1⟩

/-- Claim C3 (amended): `check_item_post` (the leave hook) is a no-op
exactly when the `is_test_module` flag is clear at the time of the call --
it does not consult the matching enter. When the flag is set it decrements
the depth by 1 and always clears the flag, regardless of whether the depth
returns to 0. -/
theorem check_item_post_behaviour (s : WildcardImports) :
    (s.check_item_post = s ↔ s.is_test_module = false)
    ∧ (s.is_test_module = true →
        s.check_item_post.is_test_module = false
        ∧ s.check_item_post.test_modules_deep = s.test_modules_deep - 1) := by
  constructor
  · constructor
    · intro he
      cases hf : s.is_test_module
      · rfl
      · rw [check_item_post_of_flag_true hf] at he
        have hc := congrArg WildcardImports.is_test_module he
        rw [clear_dec_flag, hf] at hc
        exact hc.symm
    · intro hf
      exact check_item_post_of_flag_false hf
  · intro hf
    rw [check_item_post_of_flag_true hf]
    exact ⟨rfl, rfl⟩

/-- Claim C3, counterexample: at the state reached after entering two
nested test-named declarations (flag set, depth 2), the leave hook clears
`is_test_module` even though the depth only returns to 1, not 0 -- refuting
"clears in_test_scope only when the depth returns to 0". -/
theorem check_item_post_clears_early_cex :
    ((⟨false, true, 2⟩ : WildcardImports).check_item_post.is_test_module
        = false)
    ∧ ((⟨false, true, 2⟩ : WildcardImports).check_item_post.test_modules_deep
        = 1) := by
  decide

/-- Claim C3, witness: the amended theorem applied at the state with the
flag set and depth 2. -/
theorem check_item_post_behaviour_check :
    ((⟨false, true, 2⟩ : WildcardImports).is_test_module = true)
    ∧ ((⟨false, true, 2⟩ : WildcardImports).check_item_post.is_test_module
        = false) :=
  ⟨by decide, ((check_item_post_behaviour ⟨false, true, 2⟩).2 (by decide)).1⟩

theorem update_test_state_warn (s : WildcardImports) (item : Item) :
    (update_test_state s item).warn_on_all = s.warn_on_all := by
  unfold update_test_state
  split <;> rfl

/-- Claim C1: `check_item` hands exactly one diagnostic (with a suggestion)
to the sink if and only if the item is non-public, not macro-originated, a
glob-form `use`, its resolved-name set is non-empty, and either
`warn_on_all` is set or no exemption applies (exemptions being evaluated at
the scope depth in effect for this item, i.e. after the test-module state
update); in every other case no diagnostic is emitted. -/
theorem check_item_emission_iff (s : WildcardImports) (ctx : LateContext)
    (item : Item) :
    ((s.check_item ctx item).2).isSome = true ↔
      (item.visPub = false ∧ item.visPubRestricted = false
       ∧ item.macroOrigin = false
       ∧ ∃ use_path, item.kind = ItemKind.use use_path UseKind.Glob
           ∧ ctx.usedImports ≠ []
           ∧ (s.warn_on_all = true
              ∨ WildcardImports.check_exceptions (update_test_state s item)
                  use_path.segments = false)) := by
  obtain ⟨nm, vp, vpr, mo, sp, kd⟩ := item
  unfold WildcardImports.check_item check_item_diag
  cases vp <;> cases vpr <;> cases mo <;> first | (simp; done) | skip
  cases kd with
  | use p k =>
    cases k with
    | Single => simp
    | ListStem => simp
    | Glob =>
      cases hw : s.warn_on_all <;>
      cases hexc : WildcardImports.check_exceptions
        (update_test_state s ⟨nm, false, false, false, sp,
          ItemKind.use p UseKind.Glob⟩) p.segments <;>
      cases hl : ctx.usedImports <;>
      simp_all [update_test_state_warn]
  | other => simp
/-- Claim C4: the super-in-test exemption -- the non-prelude branch of
`check_exceptions` suppressing the lint when `warn_on_all` is off --
applies if and only if the path has exactly one segment whose identifier is
`"super"`, the test-scope depth is strictly positive, and `warn_on_all` is
false. -/
theorem super_in_test_exemption_iff (s : WildcardImports)
    (segments : List PathSegment) :
    (s.warn_on_all = false ∧ s.check_exceptions segments = true
      ∧ is_prelude_import segments = false)
    ↔ (s.warn_on_all = false
       ∧ (∃ ps : PathSegment, segments = [ps] ∧ ps.ident = "super")
       ∧ 0 < s.test_modules_deep) := by
  rcases segments with _ | ⟨a, _ | ⟨b, rest⟩⟩
  · constructor
    · rintro ⟨hw, hc, hpre⟩
      rw [show s.check_exceptions [] = false from rfl] at hc
      cases hc
    · rintro ⟨_, ⟨ps, hps, _⟩, _⟩
      cases hps
  · constructor
    · rintro ⟨hw, hc, hpre⟩
      unfold WildcardImports.check_exceptions at hc
      rw [hpre, Bool.false_or, Bool.and_eq_true, decide_eq_true_eq] at hc
      obtain ⟨hsup, hdeep⟩ := hc
      simp only [is_super_only_import, beq_iff_eq] at hsup
      exact ⟨hw, ⟨a, rfl, hsup⟩, hdeep⟩
    · rintro ⟨hw, ⟨ps, hps, hsup⟩, hdeep⟩
      injection hps with h1 _
      subst h1
      have hpre : is_prelude_import [a] = false := by
        unfold is_prelude_import
        rw [List.getLast?_singleton]
        show (a.ident == "prelude") = false
        rw [hsup]
        decide
      have hson : is_super_only_import [a] = true := by
        simp only [is_super_only_import, beq_iff_eq]
        exact hsup
      refine ⟨hw, ?_, hpre⟩
      unfold WildcardImports.check_exceptions
      rw [hpre, Bool.false_or, hson, Bool.true_and, decide_eq_true_eq]
      exact hdeep
  · constructor
    · rintro ⟨hw, hc, hpre⟩
      unfold WildcardImports.check_exceptions at hc
      rw [hpre, Bool.false_or,
        show is_super_only_import (a :: b :: rest) = false from rfl,
        Bool.false_and] at hc
      cases hc
    · rintro ⟨_, ⟨ps, hps, _⟩, _⟩
      cases hps
/-- Claim C5: a glob import whose last path segment is `"prelude"` is never
reported when `warn_on_all` is false (regardless of visibility, macro
origin, scope state or resolved names); when `warn_on_all` is true the
exemption is bypassed and a diagnostic is emitted (witnessed on
`use std::prelude::*;` with two resolved names). -/
theorem prelude_exemption_behaviour :
    (∀ (ctx : LateContext) (s : WildcardImports) (item : Item)
       (use_path : UsePath),
      item.kind = ItemKind.use use_path UseKind.Glob →
      is_prelude_import use_path.segments = true →
      s.warn_on_all = false →
      (s.check_item ctx item).2 = none)
    ∧ ((WildcardImports.new true).check_item preludeCtx preludeItem).2.isSome
        = true := by
  constructor
  · intro ctx s item up hk hpre hw
    unfold WildcardImports.check_item
    split
    · rfl
    · show check_item_diag (update_test_state s item) ctx item = none
      unfold check_item_diag
      cases hm : item.macroOrigin
      · simp only [hm, Bool.not_false, if_true]
        rw [hk]
        have hexc : WildcardImports.check_exceptions (update_test_state s item)
            up.segments = true := by
          unfold WildcardImports.check_exceptions
          rw [hpre, Bool.true_or]
        have hw' : (update_test_state s item).warn_on_all = false := by
          rw [update_test_state_warn]
          exact hw
        simp [hexc, hw']
      · simp [hm]
  · decide

/-- Claim C5, witness: the prelude glob `use std::prelude::*;` produces no
diagnostic under the default configuration. -/
theorem prelude_exemption_behaviour_check :
    ((WildcardImports.new false).check_item preludeCtx preludeItem).2 = none :=
  prelude_exemption_behaviour.1 preludeCtx (WildcardImports.new false)
    preludeItem preludePath rfl (by decide) rfl
/-- Claim C6: when the source snippet for the path span is empty, the
replacement span is the path span extended by exactly one unit past its end
and the braced-form flag is true; otherwise the span is the path span
extended to the end of the enclosing item span -- shrunk by exactly one
unit when the covered text ends with the terminator `;` -- and the flag is
false. -/
theorem replacement_span_spec (ctx : LateContext) (snip : String)
    (path_span item_span : Span) :
    (snip.toList.isEmpty = true →
      compute_replacement_span ctx snip path_span item_span =
        ({ lo := path_span.lo, hi := path_span.hi + 1 }, true))
    ∧ (snip.toList.isEmpty = false →
        (endsWithChar
            (snippet ctx { lo := path_span.lo, hi := item_span.hi } "") ';'
              = true →
          compute_replacement_span ctx snip path_span item_span =
            ({ lo := path_span.lo, hi := item_span.hi - 1 }, false))
        ∧ (endsWithChar
            (snippet ctx { lo := path_span.lo, hi := item_span.hi } "") ';'
              = false →
          compute_replacement_span ctx snip path_span item_span =
            ({ lo := path_span.lo, hi := item_span.hi }, false))) := by
  unfold compute_replacement_span
  constructor
  · intro h
    rw [if_pos h]
  · intro h
    rw [if_neg (by rw [h]; simp)]
    constructor
    · intro h2
      rw [if_pos h2]
    · intro h2
      rw [if_neg (by rw [h2]; simp)]

/-- Claim C6, witness: the theorem applied with an empty path snippet
(nested glob in a braced group): the span grows one unit past its end and
the braced flag is set. -/
theorem replacement_span_spec_check :
    ("" : String).toList.isEmpty = true
    ∧ compute_replacement_span ctx0 "" { lo := 2, hi := 5 } { lo := 0, hi := 9 }
        = ({ lo := 2, hi := 6 }, true) :=
  ⟨by decide,
   (replacement_span_spec ctx0 "" { lo := 2, hi := 5 } { lo := 0, hi := 9 }).1
     (by decide)⟩
theorem insertionSort_eq_of_perm_sorted (used l : List String)
    (hp : l.Perm used) (hs : List.Sorted (· ≤ ·) l) :
    List.insertionSort (· ≤ ·) used = l :=
  List.eq_of_perm_of_sorted
    ((List.perm_insertionSort (· ≤ ·) used).trans hp.symm)
    (List.sorted_insertionSort (· ≤ ·) used) hs

theorem insertionSort_perm_congr (l₁ l₂ : List String) (hp : l₁.Perm l₂) :
    List.insertionSort (· ≤ ·) l₁ = List.insertionSort (· ≤ ·) l₂ :=
  List.eq_of_perm_of_sorted
    ((List.perm_insertionSort (· ≤ ·) l₁).trans
      (hp.trans (List.perm_insertionSort (· ≤ ·) l₂).symm))
    (List.sorted_insertionSort (· ≤ ·) l₁)
    (List.sorted_insertionSort (· ≤ ·) l₂)

theorem imports_string_of_perm (used used' : List String) (b : Bool)
    (hp : used.Perm used') :
    imports_string_of used b = imports_string_of used' b := by
  by_cases hl : used.length = 1
  · obtain ⟨a, rfl⟩ := List.length_eq_one.mp hl
    have h2 : [a] = used' := List.singleton_perm.mp hp
    rw [← h2]
  · have hl' : used'.length ≠ 1 := fun h => hl (by rw [hp.length_eq]; exact h)
    unfold imports_string_of
    rw [if_neg hl, if_neg hl', insertionSort_perm_congr used used' hp]

theorem sugg_of_perm (used used' : List String) (snip : String) (b : Bool)
    (hp : used.Perm used') :
    sugg_of used snip b = sugg_of used' snip b := by
  unfold sugg_of
  rw [imports_string_of_perm used used' b hp]

/-- Claim C7: for more than one resolved name the replacement text lists
the names sorted lexicographically and joined with ", ", independently of
resolver iteration order (permutation-invariant); in braced form no
enclosing braces are added; in non-braced form the joined names are wrapped
in braces and prefixed with the path snippet and "::"; a braced-form glob
with exactly one name is replaced by the bare name. -/
theorem sugg_text_spec (used used' l : List String) (snip x : String)
    (b : Bool) :
    (used.Perm used' → sugg_of used snip b = sugg_of used' snip b)
    ∧ (1 < used.length → l.Perm used → List.Sorted (· ≤ ·) l →
        sugg_of used snip true = String.intercalate ", " l
        ∧ sugg_of used snip false =
            snip ++ "::" ++ ("\x7b" ++ String.intercalate ", " l ++ "\x7d"))
    ∧ sugg_of [x] snip true = x := by
  refine ⟨fun hp => sugg_of_perm used used' snip b hp, fun hlen hp hs => ?_, ?_⟩
  · have hsort := insertionSort_eq_of_perm_sorted used l hp hs
    have hne : used.length ≠ 1 := by omega
    constructor
    · show imports_string_of used true = _
      unfold imports_string_of
      rw [if_neg hne]
      show String.intercalate ", " (List.insertionSort (· ≤ ·) used) = _
      rw [hsort]
    · show snip ++ "::" ++ imports_string_of used false = _
      unfold imports_string_of
      rw [if_neg hne]
      show snip ++ "::" ++
          ("\x7b" ++ String.intercalate ", " (List.insertionSort (· ≤ ·) used)
            ++ "\x7d") = _
      rw [hsort]
  · rfl

/-- Claim C7, witness: the theorem applied to the three-name set
`{"b", "a", "c"}`: the suggestion sorts the names regardless of order, and
wraps and prefixes them in the non-braced form. -/
theorem sugg_text_spec_check :
    1 < (["b", "a", "c"] : List String).length
    ∧ (sugg_of ["b", "a", "c"] "m" true
          = String.intercalate ", " ["a", "b", "c"]
       ∧ sugg_of ["b", "a", "c"] "m" false
          = "m" ++ "::"
            ++ ("\x7b" ++ String.intercalate ", " ["a", "b", "c"] ++ "\x7d")) :=
  ⟨by decide,
   (sugg_text_spec ["b", "a", "c"] ["c", "a", "b"] ["a", "b", "c"] "m" "z"
      true).2.1 (by decide) (by decide)
      (by simp [List.sorted_cons, String.le_iff_toList_le]; decide)⟩
theorem build_diag_lint (ctx : LateContext) (item : Item)
    (use_path : UsePath) :
    (build_diag ctx item use_path).lint = (lint_and_message use_path.res).1 := by
  unfold build_diag
  dsimp only
  rfl

/-- Claim C8: an emitted diagnostic has category ENUM_GLOB_USE if and only
if the glob's target path resolves to a definition of kind enum; otherwise
its category is WILDCARD_IMPORTS. -/
theorem diag_category_iff (s : WildcardImports) (ctx : LateContext)
    (item : Item) (use_path : UsePath) (d : Diagnostic)
    (hk : item.kind = ItemKind.use use_path UseKind.Glob)
    (hd : (s.check_item ctx item).2 = some d) :
    d.lint = Lint.ENUM_GLOB_USE ↔ ∃ id, use_path.res = Res.Def DefKind.Enum id := by
  have hbd : d = build_diag ctx item use_path := by
    unfold WildcardImports.check_item at hd
    split at hd
    · exact absurd hd (by simp)
    · change check_item_diag (update_test_state s item) ctx item = some d at hd
      unfold check_item_diag at hd
      rw [hk] at hd
      by_cases hm : item.macroOrigin = true
      · simp [hm] at hd
      · rw [Bool.not_eq_true] at hm
        simp [hm] at hd
        exact hd.2.2.symm
  rw [hbd, build_diag_lint]
  rcases use_path.res with ⟨kind, id⟩ | _
  · cases kind <;> simp [lint_and_message]
  · simp [lint_and_message]
/-- Claim C8, witness: the enum glob `use Ordering::*;` (target resolved as
`Res::Def(DefKind::Enum, 7)`) emits a diagnostic classified
ENUM_GLOB_USE. -/
theorem diag_category_iff_check :
    ((WildcardImports.new false).check_item enumCtx enumItem).2 = some enumDiag
    ∧ enumDiag.lint = Lint.ENUM_GLOB_USE :=
  ⟨rfl,
   (diag_category_iff (WildcardImports.new false) enumCtx enumItem enumPath
      enumDiag rfl rfl).mpr ⟨7, rfl⟩⟩

/-- Claim C9 (amended): a macro-originated declaration never produces a
diagnostic or suggestion, but its processing does NOT leave the rule's
state unchanged in general: the test-module state update runs before the
macro check, so a non-public macro-originated declaration whose identifier
contains "test" still bumps the scope state (the state is exactly what the
visibility gate and test-module update yield). -/
theorem macro_item_no_diag (ctx : LateContext) (s : WildcardImports)
    (item : Item) (hm : item.macroOrigin = true) :
    (s.check_item ctx item).2 = none
    ∧ (s.check_item ctx item).1 =
        (if item.visPub || item.visPubRestricted then s
         else update_test_state s item) := by
  constructor
  · unfold WildcardImports.check_item
    split
    · rfl
    · show check_item_diag (update_test_state s item) ctx item = none
      unfold check_item_diag
      rw [hm]
      rfl
  · exact check_item_fst s ctx item

/-- Claim C9, counterexample: a non-public macro-originated item named
"tests" yields no diagnostic but changes the rule's state (depth 0 to 1),
refuting "processing it leaves the rule's state unchanged". -/
theorem macro_item_state_change_cex :
    ((WildcardImports.new false).check_item ctx0 macroTestItem).2 = none
    ∧ ((WildcardImports.new false).check_item ctx0
        macroTestItem).1.test_modules_deep = 1
    ∧ (WildcardImports.new false).test_modules_deep = 0 := by
  decide

/-- Claim C9, witness: the amended theorem applied to the macro-originated
test-named item. -/
theorem macro_item_no_diag_check :
    macroTestItem.macroOrigin = true
    ∧ ((WildcardImports.new false).check_item ctx0 macroTestItem).2 = none :=
  ⟨rfl,
   (macro_item_no_diag ctx0 (WildcardImports.new false) macroTestItem rfl).1⟩

/-- Claim C10: for a non-braced glob with exactly one resolved name the
replacement text is the path snippet, "::", and that name verbatim, with no
braces. -/
theorem single_name_unbraced_sugg (x snip : String) :
    sugg_of [x] snip false = snip ++ "::" ++ x := by
  unfold sugg_of imports_string_of
  simp
